import Mathlib

/-!
Verification of the selection logic of `fiftyone/utils/plot/matplotlib.py`
(`MatplotlibPlot`, an interactive matplotlib scatter-plot selection controller).

The embedding models:
* the gesture classifier of `_onselect` (click-vs-drag disambiguation,
  nearest-point click lookup, lasso containment) over exact rationals;
* the shift-modified selection merger of `_onselect`;
* the no-op detection and callback dispatch at the end of `_onselect`;
* `_select_inds` (the programmatic selection entry point) and the
  `selected_inds` accessor;
* the style applier `_update_plot` together with `_prep_collection`
  (opacity is the last face-color column; only that column is modelled);
* the HUD/lifecycle state touched by `_connect` / `_disconnect`;
* the button-click closure built by `_make_callback` inside `_connect`,
  as an ordered trace of its side effects.

Numeric values carried by the plot (coordinates, view limits, tolerances,
opacities, sizes) are modelled as rationals; all comparisons performed by the
source are order comparisons, which ℚ reproduces exactly.
-/

namespace MatplotlibPlot

/-- A 2-D point (one row of `collection.get_offsets()`). -/
abbrev Point : Type := ℚ × ℚ

/-! ## Selection merging (`_onselect`, lines 236-249) -/

/-- Embedding of the merge step of `_onselect` (lines 236-249).

With `shift = true` (additive mode): the source forms
`new_inds = set(inds)` and `inds = set(self._inds)`; if
`new_inds.issubset(inds)` it removes the new indices
(`inds.difference_update(new_inds)`), else it adds them
(`inds.update(new_inds)`), and stores `np.array(sorted(inds))`.

With `shift = false`: the source stores `np.unique(inds)`, i.e. the sorted
duplicate-free values of the newly classified indices.

Python sets are modelled as duplicate-free lists (`dedup`), `issubset` as a
membership check, set difference and union by membership filtering, and
`sorted` by insertion sort. -/
def mergeSelection (shift : Bool) (cur newSel : List ℕ) : List ℕ :=
  if shift then
    let c := cur.dedup
    let n := newSel.dedup
    let r :=
      if n.all (fun x => decide (x ∈ c)) then
        c.filter (fun x => !decide (x ∈ n))
      else
        c ++ n.filter (fun x => !decide (x ∈ c))
    r.insertionSort (· ≤ ·)
  else
    newSel.dedup.insertionSort (· ≤ ·)

/-- Outcome of the tail of `_onselect` (lines 251-258): the stored index
list afterwards, whether the registered selection callback was invoked
(the source invokes it whenever `self._select_callback` is not `None`;
we model the case of a registered callback), and whether `self.draw()`
was called directly by `_onselect`. -/
structure GestureOutcome where
  inds : List ℕ
  fired : Bool
  drew : Bool
  deriving DecidableEq, Repr

/-- Embedding of the tail of `_onselect` (lines 251-258), applied to the merged
index list. The no-op test of the source,
`inds.size == self._inds.size and np.all(inds == self._inds)`, is elementwise
array equality, i.e. equality of the two lists; in that case the source only
calls `self.draw()` and returns. Otherwise it calls `self._select_inds(inds)`
(which stores the merged array) and then the selection callback. -/
def onselectMerge (shift : Bool) (cur classified : List ℕ) : GestureOutcome :=
  let merged := mergeSelection shift cur classified
  if merged = cur then
    { inds := cur, fired := false, drew := true }
  else
    { inds := merged, fired := true, drew := false }

/-! ## Programmatic selection (`_select_inds`, lines 260-265) -/

/-- Embedding of `_select_inds` (lines 260-265): `None` becomes `[]`, and the
given indices are stored verbatim (`self._inds = np.asarray(inds)`); no
sorting or de-duplication happens on this path, and no callback is invoked. -/
def select_inds (inds : Option (List ℕ)) : GestureOutcome :=
  { inds := inds.getD [], fired := false, drew := false }

/-- Embedding of the `selected_inds` accessor (lines 94-96):
`list(self._inds)` returns the stored index list as-is. -/
def selected_inds (stored : List ℕ) : List ℕ := stored

/-! ## Lifecycle and HUD state (`_connect`, `_disconnect`, `_update_hud`) -/

/-- The mutable lifecycle/HUD fields of a `MatplotlibPlot` touched by
`_connect` and `_disconnect`. `connected` is the base-class `is_connected`
flag (the `InteractivePlot` base class is not part of this file's source; see
`connect` / `disconnect` below). `hasLasso` records whether `self._lasso`
holds a live `LassoSelector`; `figureEvents` and `keypressEvents` hold the
toolkit connection ids (opaque tokens here); `titleVisible` and
`buttonsVisible` are the visibility flags written by `_update_hud` (one entry
of `buttonsVisible` per HUD button). -/
structure PlotState where
  connected : Bool
  hasLasso : Bool
  figureEvents : List ℕ
  keypressEvents : List ℕ
  shift : Bool
  titleText : String
  titleVisible : Bool
  buttonsVisible : List Bool
  deriving DecidableEq, Repr

/-- Embedding of `_update_hud` (lines 191-194): sets the title's visibility
and every button's visibility to the given flag. -/
def update_hud (visible : Bool) (s : PlotState) : PlotState :=
  { s with
    titleVisible := visible
    buttonsVisible := s.buttonsVisible.map (fun _ => visible) }

/-- Embedding of `_connect` (lines 115-142): installs the lasso selector,
wires the button callbacks (not part of this state), sets the title text,
registers the two figure-event and two key-event listeners (their toolkit
connection ids modelled as the tokens 0-3), and hides the HUD. -/
def connectImpl (s : PlotState) : PlotState :=
  update_hud false
    { s with
      hasLasso := true
      titleText := "Click or drag to select points"
      figureEvents := [0, 1]
      keypressEvents := [2, 3] }

/-- Embedding of `_disconnect` (lines 144-160): returns immediately when the
base-class `is_connected` flag is off (so the `None` lasso is never touched);
otherwise disconnects and drops the lasso, disconnects every registered
figure-event and key-event listener, resets additive mode, and hides the
HUD. -/
def disconnectImpl (s : PlotState) : PlotState :=
  if s.connected then
    update_hud false
      { s with
        hasLasso := false
        shift := false
        figureEvents := []
        keypressEvents := [] }
  else
    s

/-- Modelled from the spec: the `InteractivePlot` base class (not among the
source files) defines the public `connect()` lifecycle operation, which runs
the `_connect` hook and records the connected state exposed as
`is_connected`. -/
def connect (s : PlotState) : PlotState :=
  if s.connected then s else { connectImpl s with connected := true }

/-- Modelled from the spec: the `InteractivePlot` base class (not among the
source files) defines the public `disconnect()` lifecycle operation, a no-op
when already disconnected, which otherwise runs the `_disconnect` hook and
clears the connected state exposed as `is_connected`. -/
def disconnect (s : PlotState) : PlotState :=
  if s.connected then { disconnectImpl s with connected := false } else s

/-! ## Button click handler (`_make_callback` inside `_connect`, lines 118-126) -/

/-- The observable side effects performed by the closure `_callback` built by
`_make_callback`. -/
inductive UIEvent where
  | setFacecolorNonHover
  | drawRequested
  | externalCallback
  deriving DecidableEq, Repr

/-- Embedding of the body of the closure built by `_make_callback`
(lines 119-124): on a button click the source runs
`button.ax.set_facecolor(button.color)` (restyle to the non-hover color),
then `self.draw()` (request a redraw), then `callback(event)` (the bound
external callback), in that order. The list records the side effects in
execution order. -/
def buttonClickEvents : List UIEvent :=
  [UIEvent.setFacecolorNonHover, UIEvent.drawRequested, UIEvent.externalCallback]

/-! ## Style applier (`_update_plot`, lines 267-283, and `_prep_collection`) -/

/-- The per-point style buffers: `fcAlpha i` is the opacity (last column of
the face-color row `self._fc[i]`; the color columns are never written by
this component and are not modelled) and `ms i` is the marker size
`self._ms[i]`. -/
structure Buffers where
  fcAlpha : List ℚ
  ms : List ℚ
  deriving DecidableEq, Repr

/-- Embedding of `np.tile(buf[0], n)` row replication used by
`_prep_collection`: `n` copies of the first entry (the source indexes
`buf[0]`, so it is only reached on a non-empty buffer; on `[]` we keep the
buffer, a case no claim exercises and the source would fail on). -/
def tileFirst (n : ℕ) (l : List ℚ) : List ℚ :=
  match l with
  | [] => l
  | x :: _ => List.replicate n x

/-- Embedding of `_prep_collection` (lines 285-297) for a plot of `n` points.
The source's first step re-reads the face-color buffer from the external
matplotlib collection when it is shorter than the point count; that external
read is not modelled (it fires only on a buffer shorter than the point
count, which every claim below excludes by hypothesis). The remaining steps
replicate the first row of a still-short face-color buffer `n` times, and,
when `expand_selected` is not `None`, likewise replicate the first entry of a
short size buffer. -/
def prep_collection (n : ℕ) (expand : Option ℚ) (b : Buffers) : Buffers :=
  let fc := if b.fcAlpha.length < n then tileFirst n b.fcAlpha else b.fcAlpha
  let ms :=
    match expand with
    | none => b.ms
    | some _ => if b.ms.length < n then tileFirst n b.ms else b.ms
  { fcAlpha := fc, ms := ms }

/-- Vectorized opacity rewrite of `_update_plot` (lines 270-275): with an
empty selection, `self._fc[:, -1] = 1`; otherwise
`self._fc[:, -1] = self.alpha_other` followed by `self._fc[inds, -1] = 1`.
Elementwise on positions `0, ..., len - 1`. -/
def updateFcAlpha (alpha : ℚ) (sel : List ℕ) (len : ℕ) : List ℚ :=
  (List.range len).map (fun i => if sel = [] then 1 else if i ∈ sel then 1 else alpha)

/-- Vectorized size rewrite of `_update_plot` (lines 279-281): when
`expand_selected` is `None` the size buffer is not touched; otherwise
`self._ms[:] = self._init_ms` followed by
`self._ms[inds] = self.expand_selected * self._init_ms`, where `init` is the
initial default size `self._init_ms` captured at construction (line 71). -/
def updateMs (expand : Option ℚ) (init : ℚ) (sel : List ℕ) (ms : List ℚ) : List ℚ :=
  match expand with
  | none => ms
  | some e => (List.range ms.length).map (fun i => if i ∈ sel then e * init else init)

/-- Embedding of `_update_plot` (lines 267-283) for a plot of `n` points:
run `_prep_collection`, rewrite the opacity column from the current
selection, and rewrite the size buffer when `expand_selected` is enabled.
The final `set_facecolors` / `set_sizes` calls push these same buffers to the
external collection and are represented by the returned buffers. -/
def update_plot (alpha : ℚ) (expand : Option ℚ) (init : ℚ) (n : ℕ)
    (sel : List ℕ) (b : Buffers) : Buffers :=
  let p := prep_collection n expand b
  { fcAlpha := updateFcAlpha alpha sel p.fcAlpha.length
    ms := updateMs expand init sel p.ms }

/-! ## Gesture classifier (`_onselect`, lines 216-234) -/

/-- The data `_onselect` reads when classifying a gesture: the fixed point
set `self._xy` (line 67), the view limits returned by `ax.get_xlim()` /
`ax.get_ylim()`, and the configured `click_tolerance`. -/
structure ViewConfig where
  pts : List Point
  x1 : ℚ
  x2 : ℚ
  y1 : ℚ
  y2 : ℚ
  tol : ℚ
  deriving DecidableEq, Repr

/-- Embedding of line 219:
`click_thresh = self.click_tolerance * min(abs(x2 - x1), abs(y2 - y1))`. -/
def clickThresh (c : ViewConfig) : ℚ :=
  c.tol * min |c.x2 - c.x1| |c.y2 - c.y1|

/-- Embedding of `np.abs(np.diff(vertices, axis=0)).sum()` (line 221): the sum
over consecutive vertex pairs of the absolute coordinate deltas in both
coordinates. Empty and single-vertex paths have no consecutive pair and sum
to `0`. -/
def pathDeltaSum : List Point → ℚ
  | [] => 0
  | [_] => 0
  | p :: q :: rest => |q.1 - p.1| + |q.2 - p.2| + pathDeltaSum (q :: rest)

/-- Embedding of line 221: `is_click = np.abs(np.diff(vertices, axis=0)).sum() < click_thresh`. -/
def isClick (c : ViewConfig) (vs : List Point) : Bool :=
  decide (pathDeltaSum vs < clickThresh c)

/-- Squared Euclidean distance between two points. The source compares the
Euclidean distance `skp.euclidean_distances` (a square root) against the
click threshold; we carry the square and compare with `sqrtLt`, which is
exactly the order relation the square root satisfies. -/
def distSq (p v : Point) : ℚ :=
  (p.1 - v.1) ^ 2 + (p.2 - v.2) ^ 2

/-- Exact rendering of `Real.sqrt s < t` for a nonnegative radicand `s`
without leaving ℚ: the square root (always ≥ 0) is below `t` iff `t` is
positive and `s < t ^ 2`. -/
def sqrtLt (s t : ℚ) : Prop :=
  0 < t ∧ s < t ^ 2

instance (s t : ℚ) : Decidable (sqrtLt s t) := by
  unfold sqrtLt
  infer_instance

/-- Minimum value of a rational list (`none` on an empty list). -/
def listMinQ : List ℚ → Option ℚ
  | [] => none
  | x :: xs =>
    match listMinQ xs with
    | none => some x
    | some m => some (min x m)

/-- Modelled behavior of `np.argmin` (external library): the index of the
first occurrence of the minimum value, `none` on an empty array (where the
library raises). -/
def npArgmin (l : List ℚ) : Option ℕ :=
  (listMinQ l).map (fun m => l.indexOf m)

/-- Modelled from the spec: matplotlib's `Path.contains_points` (toolkit
code, not part of this repository) used on line 234; the spec says the drag
path selects every point inside the closed polygon built from the vertex
sequence, with an implementation-defined boundary policy. Standard even-odd
(ray-crossing) test for one polygon edge `(a, b)` against the horizontal ray
from `p`: the edge straddles `p`'s height and the crossing lies strictly to
the right of `p`. -/
def edgeCrosses (p a b : Point) : Bool :=
  (decide (p.2 < a.2) != decide (p.2 < b.2)) &&
    decide (p.1 < (b.1 - a.1) * (p.2 - a.2) / (b.2 - a.2) + a.1)

/-- Modelled from the spec: even-odd point-in-polygon containment for the
closed polygon on the vertex list (edges join consecutive vertices and the
last vertex back to the first). -/
def inPolygon (poly : List Point) (p : Point) : Bool :=
  ((poly.zip (poly.rotate 1)).filter (fun e => edgeCrosses p e.1 e.2)).length % 2 == 1

/-- Embedding of the classification part of `_onselect` (lines 216-234),
producing the `inds` array handed to the merge step, as a sorted list of
indices into `c.pts`. `none` models the source raising on the path:
* click branch with an empty vertex path: `vertices[0]` raises `IndexError`;
* click branch with an empty point set: `np.argmin` of an empty array raises;
* drag branch with an empty vertex path: `Path(vertices)` rejects an empty
  vertex array.
In the click branch the source takes the index of the point nearest to the
first vertex and keeps it only when that distance is below the click
threshold (line 226); in the drag branch it takes
`np.nonzero(path.contains_points(self._xy))[0]`, the increasing list of
indices of contained points. -/
def onselectClassify (c : ViewConfig) (vs : List Point) : Option (List ℕ) :=
  if isClick c vs then
    match vs with
    | [] => none
    | v :: _ =>
      let dists := c.pts.map (fun p => distSq p v)
      match npArgmin dists with
      | none => none
      | some j =>
        if sqrtLt (dists.getD j 0) (clickThresh c) then some [j] else some []
  else
    match vs with
    | [] => none
    | _ :: _ =>
      some ((List.range c.pts.length).filter
        (fun i => inPolygon vs (c.pts.getD i (0, 0))))

/-! ## Helper lemmas -/

lemma mergeSelection_sorted (shift : Bool) (cur newSel : List ℕ) :
    List.Sorted (· ≤ ·) (mergeSelection shift cur newSel) := by
  unfold mergeSelection
  cases shift
  · exact List.sorted_insertionSort _ _
  · simp only [Bool.true_eq]
    exact List.sorted_insertionSort _ _

lemma mergeSelection_nodup (shift : Bool) (cur newSel : List ℕ) :
    (mergeSelection shift cur newSel).Nodup := by
  unfold mergeSelection
  cases shift
  · simpa using ((List.perm_insertionSort (· ≤ ·) _).nodup_iff).mpr
      (List.nodup_dedup newSel)
  · simp only [Bool.true_eq, if_true]
    refine ((List.perm_insertionSort (· ≤ ·) _).nodup_iff).mpr ?_
    split
    · exact (List.nodup_dedup cur).filter _
    · refine (List.nodup_dedup cur).append ((List.nodup_dedup newSel).filter _) ?_
      intro x hx hx'
      have := List.of_mem_filter hx'
      simp only [Bool.not_eq_true', decide_eq_false_iff_not] at this
      exact this hx

lemma mem_mergeSelection_true (cur newSel : List ℕ) (a : ℕ) :
    a ∈ mergeSelection true cur newSel ↔
      (if newSel.toFinset ⊆ cur.toFinset then a ∈ cur ∧ a ∉ newSel
       else a ∈ cur ∨ a ∈ newSel) := by
  have hsub : (newSel.dedup.all (fun x => decide (x ∈ cur.dedup)) = true)
      ↔ newSel.toFinset ⊆ cur.toFinset := by
    simp [List.all_eq_true, Finset.subset_iff]
  unfold mergeSelection
  rw [if_pos rfl]
  simp only [List.mem_insertionSort]
  by_cases h : newSel.toFinset ⊆ cur.toFinset
  · rw [if_pos (hsub.mpr h), if_pos h]
    simp [List.mem_filter]
  · rw [if_neg (fun hb => h (hsub.mp hb)), if_neg h]
    simp [List.mem_filter, List.mem_append]
    tauto

lemma mergeSelection_true_toFinset (cur newSel : List ℕ) :
    (mergeSelection true cur newSel).toFinset =
      if newSel.toFinset ⊆ cur.toFinset then cur.toFinset \ newSel.toFinset
      else cur.toFinset ∪ newSel.toFinset := by
  ext a
  rw [List.mem_toFinset, mem_mergeSelection_true]
  by_cases h : newSel.toFinset ⊆ cur.toFinset
  · rw [if_pos h, if_pos h]
    simp
  · rw [if_neg h, if_neg h]
    simp

/-! ## Claim theorems -/

/-- C1: with additive mode (shift) held, merging a newly classified index set
into the current selection removes the new indices when the new set is a
subset of (or equal to) the current set, and takes the union otherwise; in
particular merging {2} into {1,2,3} gives {1,3} and merging {3,4} into {1,2}
gives {1,2,3,4}. -/
theorem c1_additive_merge (cur newSel : List ℕ) :
    ((mergeSelection true cur newSel).toFinset =
      if newSel.toFinset ⊆ cur.toFinset then cur.toFinset \ newSel.toFinset
      else cur.toFinset ∪ newSel.toFinset) ∧
    mergeSelection true [1, 2, 3] [2] = [1, 3] ∧
    mergeSelection true [1, 2] [3, 4] = [1, 2, 3, 4] :=
  ⟨mergeSelection_true_toFinset cur newSel, by decide, by decide⟩

/-- C2 (counterexample): in the button-click closure built by
`_make_callback`, the external callback is not invoked before the restyle of
the clicked button — the source performs the restyle first. -/
theorem c2_counterexample :
    ¬ (buttonClickEvents.indexOf UIEvent.externalCallback <
        buttonClickEvents.indexOf UIEvent.setFacecolorNonHover) := by
  decide

/-- C2 (amended): when a HUD button is clicked, the handler first restyles
the clicked button to its non-hover visual state and requests a redraw, and
only afterwards invokes the bound external callback. -/
theorem c2_button_restyle_before_callback :
    buttonClickEvents =
      [UIEvent.setFacecolorNonHover, UIEvent.drawRequested,
        UIEvent.externalCallback] ∧
    buttonClickEvents.indexOf UIEvent.setFacecolorNonHover <
      buttonClickEvents.indexOf UIEvent.externalCallback ∧
    buttonClickEvents.indexOf UIEvent.drawRequested <
      buttonClickEvents.indexOf UIEvent.externalCallback := by
  refine ⟨rfl, by decide, by decide⟩

/-- C4 (counterexample): the programmatic entry point `_select_inds` stores
the given indices verbatim, so after `_select_inds([3, 1, 1])` the stored
selection read back through `selected_inds` is `[3, 1, 1]`, which is neither
sorted nor duplicate-free. -/
theorem c4_counterexample :
    selected_inds (select_inds (some [3, 1, 1])).inds = [3, 1, 1] ∧
    ¬ List.Sorted (· ≤ ·) (selected_inds (select_inds (some [3, 1, 1])).inds) ∧
    ¬ (selected_inds (select_inds (some [3, 1, 1])).inds).Nodup := by
  refine ⟨rfl, by decide, by decide⟩

/-- C4 (amended): every gesture-driven write of the selection (the merge step
of `_onselect`) stores a sorted, duplicate-free index list, but the
programmatic `_select_inds` entry point stores exactly the list it is given
(empty for `None`) with no normalization, and the `selected_inds` accessor
returns the stored list as-is. -/
theorem c4_gesture_writes_normalized (shift : Bool) (cur newSel l : List ℕ) :
    List.Sorted (· ≤ ·) (mergeSelection shift cur newSel) ∧
    (mergeSelection shift cur newSel).Nodup ∧
    (select_inds (some l)).inds = l ∧
    (select_inds none).inds = [] ∧
    selected_inds (select_inds (some l)).inds = l :=
  ⟨mergeSelection_sorted shift cur newSel, mergeSelection_nodup shift cur newSel,
    rfl, rfl, rfl⟩

lemma sortedNodup_eq_iff {l₁ l₂ : List ℕ}
    (h₁s : List.Sorted (· ≤ ·) l₁) (h₁n : l₁.Nodup)
    (h₂s : List.Sorted (· ≤ ·) l₂) (h₂n : l₂.Nodup) :
    l₁ = l₂ ↔ l₁.toFinset = l₂.toFinset := by
  constructor
  · intro h
    rw [h]
  · intro h
    exact List.eq_of_perm_of_sorted
      (List.perm_of_nodup_nodup_toFinset_eq h₁n h₂n h) h₁s h₂s

/-- C5 (counterexample): starting from the stored selection `[2, 1]` (put
there verbatim by the programmatic `_select_inds` entry point), a plain
gesture classifying `[1, 2]` merges to the normalized array `[1, 2]`, which
denotes the same index set as `[2, 1]`; yet the elementwise no-op test of
`_onselect` fails and the selection callback fires. -/
theorem c5_counterexample :
    (select_inds (some [2, 1])).inds = [2, 1] ∧
    ([1, 2] : List ℕ).toFinset = ([2, 1] : List ℕ).toFinset ∧
    (onselectMerge false [2, 1] [1, 2]).inds = [1, 2] ∧
    (onselectMerge false [2, 1] [1, 2]).fired = true := by
  refine ⟨rfl, by decide, by decide, by decide⟩

/-- C5 (amended): assuming a registered selection callback and a stored
selection that is normalized (sorted and duplicate-free) — which every
gesture-driven write guarantees, though the programmatic entry point does
not — a user gesture fires the callback exactly when (and exactly once
when) its merged result differs as a set from the previous selection; in the
no-op case the state is unchanged and `_onselect` still requests a redraw;
and the programmatic `_select_inds` never fires the callback. -/
theorem c5_callback_iff_set_changed (shift : Bool) (cur classified : List ℕ)
    (hs : List.Sorted (· ≤ ·) cur) (hn : cur.Nodup) :
    ((onselectMerge shift cur classified).fired = true ↔
      (onselectMerge shift cur classified).inds.toFinset ≠ cur.toFinset) ∧
    ((onselectMerge shift cur classified).fired = false →
      (onselectMerge shift cur classified).inds = cur ∧
      (onselectMerge shift cur classified).drew = true) ∧
    ((onselectMerge shift cur classified).fired = true →
      (onselectMerge shift cur classified).inds =
        mergeSelection shift cur classified) ∧
    (∀ req : Option (List ℕ), (select_inds req).fired = false) := by
  have key : mergeSelection shift cur classified = cur ↔
      (mergeSelection shift cur classified).toFinset = cur.toFinset :=
    sortedNodup_eq_iff (mergeSelection_sorted shift cur classified)
      (mergeSelection_nodup shift cur classified) hs hn
  unfold onselectMerge
  by_cases h : mergeSelection shift cur classified = cur
  · rw [if_pos h]
    refine ⟨?_, fun _ => ⟨rfl, rfl⟩, fun hf => absurd hf (by simp), fun _ => rfl⟩
    simp only [Bool.false_eq_true, false_iff, ne_eq, not_not]
  · rw [if_neg h]
    refine ⟨?_, fun hf => absurd hf (by simp), fun _ => rfl, fun _ => rfl⟩
    simp only [true_iff, ne_eq]
    exact fun heq => h (key.mpr heq)

/-- C5 (witness): the amended statement evaluated with the normalized stored
selection `[1, 3]` and a shift-gesture classifying `[2]`, whose merged result
`[1, 2, 3]` differs from `[1, 3]`, so the callback fires. -/
theorem c5_witness :
    ((onselectMerge true [1, 3] [2]).fired = true ↔
      (onselectMerge true [1, 3] [2]).inds.toFinset ≠
        ([1, 3] : List ℕ).toFinset) ∧
    ((onselectMerge true [1, 3] [2]).fired = false →
      (onselectMerge true [1, 3] [2]).inds = [1, 3] ∧
      (onselectMerge true [1, 3] [2]).drew = true) ∧
    ((onselectMerge true [1, 3] [2]).fired = true →
      (onselectMerge true [1, 3] [2]).inds = mergeSelection true [1, 3] [2]) ∧
    (∀ req : Option (List ℕ), (select_inds req).fired = false) :=
  c5_callback_iff_set_changed true [1, 3] [2] (by decide) (by decide)

lemma disconnect_of_not_connected {t : PlotState} (h : t.connected = false) :
    disconnect t = t := by
  unfold disconnect
  rw [h]
  simp

/-- C9: `disconnect()` is idempotent — on an already-disconnected instance it
changes nothing (and in particular touches no listener, so no error can
arise), while on a connected instance it detaches every listener registered
by `connect()` (the lasso, both figure events, both key events), resets
additive mode to off, hides the HUD title and every HUD button, and clears
the connected flag. -/
theorem c9_disconnect_idempotent (s : PlotState) :
    disconnect (disconnect s) = disconnect s ∧
    (s.connected = false → disconnect s = s) ∧
    (s.connected = true →
      (disconnect s).connected = false ∧
      (disconnect s).hasLasso = false ∧
      (disconnect s).figureEvents = [] ∧
      (disconnect s).keypressEvents = [] ∧
      (disconnect s).shift = false ∧
      (disconnect s).titleVisible = false ∧
      ∀ b ∈ (disconnect s).buttonsVisible, b = false) := by
  by_cases h : s.connected = true
  · have hd : (disconnect s).connected = false := by
      simp [disconnect, h]
    refine ⟨disconnect_of_not_connected hd,
      fun hf => absurd h (by simp [hf]), fun _ => ?_⟩
    refine ⟨hd, ?_, ?_, ?_, ?_, ?_, ?_⟩ <;>
      simp [disconnect, disconnectImpl, update_hud, h]
  · have hf : s.connected = false := by simpa using h
    have hid : disconnect s = s := disconnect_of_not_connected hf
    exact ⟨by rw [hid, hid], fun _ => hid, fun ht => absurd ht h⟩

/-- C9 (witness): the idempotence statement evaluated at a concrete
disconnected state and a concrete connected state. -/
theorem c9_witness :
    (disconnect
        { connected := false, hasLasso := false, figureEvents := [],
          keypressEvents := [], shift := false, titleText := "t",
          titleVisible := false, buttonsVisible := [false] } =
      { connected := false, hasLasso := false, figureEvents := [],
        keypressEvents := [], shift := false, titleText := "t",
        titleVisible := false, buttonsVisible := [false] }) ∧
    ((disconnect
        { connected := true, hasLasso := true, figureEvents := [0, 1],
          keypressEvents := [2, 3], shift := true, titleText := "t",
          titleVisible := true, buttonsVisible := [true, true] }).connected = false ∧
      (disconnect
        { connected := true, hasLasso := true, figureEvents := [0, 1],
          keypressEvents := [2, 3], shift := true, titleText := "t",
          titleVisible := true, buttonsVisible := [true, true] }).hasLasso = false ∧
      (disconnect
        { connected := true, hasLasso := true, figureEvents := [0, 1],
          keypressEvents := [2, 3], shift := true, titleText := "t",
          titleVisible := true, buttonsVisible := [true, true] }).figureEvents = [] ∧
      (disconnect
        { connected := true, hasLasso := true, figureEvents := [0, 1],
          keypressEvents := [2, 3], shift := true, titleText := "t",
          titleVisible := true, buttonsVisible := [true, true] }).keypressEvents = [] ∧
      (disconnect
        { connected := true, hasLasso := true, figureEvents := [0, 1],
          keypressEvents := [2, 3], shift := true, titleText := "t",
          titleVisible := true, buttonsVisible := [true, true] }).shift = false ∧
      (disconnect
        { connected := true, hasLasso := true, figureEvents := [0, 1],
          keypressEvents := [2, 3], shift := true, titleText := "t",
          titleVisible := true, buttonsVisible := [true, true] }).titleVisible = false ∧
      ∀ b ∈ (disconnect
        { connected := true, hasLasso := true, figureEvents := [0, 1],
          keypressEvents := [2, 3], shift := true, titleText := "t",
          titleVisible := true, buttonsVisible := [true, true] }).buttonsVisible,
        b = false) :=
  ⟨(c9_disconnect_idempotent
      { connected := false, hasLasso := false, figureEvents := [],
        keypressEvents := [], shift := false, titleText := "t",
        titleVisible := false, buttonsVisible := [false] }).2.1 rfl,
    (c9_disconnect_idempotent
      { connected := true, hasLasso := true, figureEvents := [0, 1],
        keypressEvents := [2, 3], shift := true, titleText := "t",
        titleVisible := true, buttonsVisible := [true, true] }).2.2 rfl⟩

lemma listMinQ_eq_none {l : List ℚ} (h : listMinQ l = none) : l = [] := by
  cases l with
  | nil => rfl
  | cons x xs =>
    unfold listMinQ at h
    cases hx : listMinQ xs <;> rw [hx] at h <;> simp at h

lemma listMinQ_spec {l : List ℚ} {m : ℚ} (h : listMinQ l = some m) :
    m ∈ l ∧ ∀ y ∈ l, m ≤ y := by
  induction l generalizing m with
  | nil => simp [listMinQ] at h
  | cons x xs ih =>
    unfold listMinQ at h
    cases hx : listMinQ xs with
    | none =>
      rw [hx] at h
      obtain rfl : x = m := by simpa using h
      obtain rfl : xs = [] := listMinQ_eq_none hx
      simp
    | some m' =>
      rw [hx] at h
      obtain rfl : min x m' = m := by simpa using h
      obtain ⟨hmem, hmin⟩ := ih hx
      constructor
      · rcases min_cases x m' with ⟨he, _⟩ | ⟨he, _⟩ <;> rw [he]
        · exact List.mem_cons_self x xs
        · exact List.mem_cons_of_mem x hmem
      · intro y hy
        rcases List.mem_cons.mp hy with rfl | hy'
        · exact min_le_left _ _
        · exact le_trans (min_le_right _ _) (hmin y hy')

lemma getD_eq_getElem_of_lt {α : Type} (d : α) {l : List α} {i : ℕ}
    (h : i < l.length) : l.getD i d = l[i] := by
  rw [List.getD_eq_getElem?_getD, List.getElem?_eq_getElem h]
  rfl

lemma npArgmin_spec {l : List ℚ} (hl : l ≠ []) :
    ∃ j, npArgmin l = some j ∧ j < l.length ∧
      (∀ k, k < l.length → l.getD j 0 ≤ l.getD k 0) := by
  cases hm : listMinQ l with
  | none => exact absurd (listMinQ_eq_none hm) hl
  | some m =>
    obtain ⟨hmem, hmin⟩ := listMinQ_spec hm
    have hjlen : l.indexOf m < l.length := List.indexOf_lt_length.mpr hmem
    refine ⟨l.indexOf m, ?_, hjlen, ?_⟩
    · unfold npArgmin
      rw [hm]
      rfl
    · intro k hk
      rw [getD_eq_getElem_of_lt 0 hjlen, getD_eq_getElem_of_lt 0 hk,
        List.getElem_indexOf hjlen]
      exact hmin _ (List.getElem_mem hk)

lemma dists_getD (pts : List Point) (v : Point) {k : ℕ} (hk : k < pts.length) :
    (pts.map (fun p => distSq p v)).getD k 0 = distSq (pts.getD k (0, 0)) v := by
  have hk' : k < (pts.map (fun p => distSq p v)).length := by simpa using hk
  rw [getD_eq_getElem_of_lt 0 hk', getD_eq_getElem_of_lt (0, 0) hk,
    List.getElem_map]

lemma onselectClassify_click (c : ViewConfig) (v : Point) (rest : List Point)
    (hclick : isClick c (v :: rest) = true) {j : ℕ}
    (hj : npArgmin (c.pts.map (fun p => distSq p v)) = some j) :
    onselectClassify c (v :: rest) =
      if sqrtLt ((c.pts.map (fun p => distSq p v)).getD j 0) (clickThresh c)
      then some [j] else some [] := by
  unfold onselectClassify
  rw [hclick, if_pos rfl]
  simp only [hj]

/-- C3 (counterexample): on an empty gesture path the handler does not yield
an empty selection — both branches of `_onselect` fail (the click branch
indexes `vertices[0]`, the drag branch builds a `Path` from no vertices), so
the classification produces no result at all. -/
theorem c3_counterexample :
    onselectClassify
      { pts := [((1 : ℚ), 1)], x1 := 0, x2 := 10, y1 := 0, y2 := 10,
        tol := 1 / 50 } [] = none ∧
    onselectClassify
      { pts := [((1 : ℚ), 1)], x1 := 0, x2 := 10, y1 := 0, y2 := 10,
        tol := 1 / 50 } [] ≠ some [] := by
  have h : onselectClassify
      { pts := [((1 : ℚ), 1)], x1 := 0, x2 := 10, y1 := 0, y2 := 10,
        tol := 1 / 50 } [] = none := by
    unfold onselectClassify
    split <;> rfl
  exact ⟨h, by rw [h]; simp⟩

/-- C3 (amended): for every selection state and view configuration,
processing a gesture whose vertex path is empty fails: the summed
consecutive-vertex delta of an empty path is zero, so with a positive click
threshold the click branch is taken and indexes the first vertex of the
empty path, and otherwise the drag branch constructs a polygon from the
empty path; in either case the handler produces no classified selection. -/
theorem c3_empty_path_fails (c : ViewConfig) :
    onselectClassify c [] = none := by
  unfold onselectClassify
  split <;> rfl

/-- C8 (counterexample): with the in-range click tolerance `0`, the click
threshold is `0` and the summed delta `0` of a single-vertex path is not
strictly below it, so the gesture is classified as a drag, not a click. -/
theorem c8_counterexample :
    isClick
      { pts := [((0 : ℚ), 0)], x1 := 0, x2 := 1, y1 := 0, y2 := 1, tol := 0 }
      [((1 : ℚ) / 2, (1 : ℚ) / 2)] = false := by
  simp [isClick, clickThresh, pathDeltaSum]

/-- C8 (amended): whenever the click threshold
`click_tolerance * min(|x_range|, |y_range|)` is positive — in particular
for every positive tolerance and nondegenerate view extent — a single-vertex
gesture path is classified as a click, because its summed absolute
consecutive-vertex delta is zero, which is below the threshold. -/
theorem c8_single_vertex_click (c : ViewConfig) (v : Point)
    (h : 0 < clickThresh c) : isClick c [v] = true := by
  unfold isClick
  have h0 : pathDeltaSum [v] = 0 := rfl
  rw [h0]
  exact decide_eq_true h

/-- C8 (witness): the amended statement at a concrete view (extent 0-10 in
both axes, the default tolerance 0.02), whose click threshold 0.2 is
positive. -/
theorem c8_witness :
    isClick
      { pts := [], x1 := 0, x2 := 10, y1 := 0, y2 := 10, tol := 1 / 50 }
      [((1 : ℚ), 1)] = true :=
  c8_single_vertex_click
    { pts := [], x1 := 0, x2 := 10, y1 := 0, y2 := 10, tol := 1 / 50 }
    ((1 : ℚ), 1) (by norm_num [clickThresh])

/-- C7: for a non-empty point set, a gesture classified as a click yields at
most one index: exactly one index of a point nearest (in Euclidean distance)
to the first vertex when that nearest distance is below the click threshold,
and no index at all otherwise. (`sqrtLt s t` states that the Euclidean
distance `√s` is below `t`.) -/
theorem c7_click_classification (c : ViewConfig) (v : Point) (rest : List Point)
    (hpts : c.pts ≠ []) (hclick : isClick c (v :: rest) = true) :
    ∃ r, onselectClassify c (v :: rest) = some r ∧ r.length ≤ 1 ∧
      ((∃ j, r = [j] ∧ j < c.pts.length ∧
          (∀ k, k < c.pts.length →
            distSq (c.pts.getD j (0, 0)) v ≤ distSq (c.pts.getD k (0, 0)) v) ∧
          sqrtLt (distSq (c.pts.getD j (0, 0)) v) (clickThresh c)) ∨
        (r = [] ∧ ∀ k, k < c.pts.length →
          ¬ sqrtLt (distSq (c.pts.getD k (0, 0)) v) (clickThresh c))) := by
  have hd : c.pts.map (fun p => distSq p v) ≠ [] := by
    simpa using hpts
  obtain ⟨j, hj, hjlen, hjmin⟩ := npArgmin_spec hd
  have hlen : (c.pts.map (fun p => distSq p v)).length = c.pts.length := by
    simp
  rw [hlen] at hjlen
  have hcls := onselectClassify_click c v rest hclick hj
  have hgd : (c.pts.map (fun p => distSq p v)).getD j 0 =
      distSq (c.pts.getD j (0, 0)) v := dists_getD c.pts v hjlen
  rw [hgd] at hcls
  by_cases hlt : sqrtLt (distSq (c.pts.getD j (0, 0)) v) (clickThresh c)
  · refine ⟨[j], by rw [hcls, if_pos hlt], by simp, Or.inl ⟨j, rfl, hjlen, ?_, hlt⟩⟩
    intro k hk
    have := hjmin k (by simpa [hlen] using hk)
    rwa [hgd, dists_getD c.pts v hk] at this
  · refine ⟨[], by rw [hcls, if_neg hlt], by simp, Or.inr ⟨rfl, ?_⟩⟩
    intro k hk hsq
    apply hlt
    have hle := hjmin k (by simpa [hlen] using hk)
    rw [hgd, dists_getD c.pts v hk] at hle
    exact ⟨hsq.1, lt_of_le_of_lt hle hsq.2⟩

/-- C7 (witness): the click classification at a two-point set
`[(0,0), (5,5)]`, view extent 0-10, tolerance 0.1 (threshold 1), for a click
at `(0,0)`: the nearest point is index 0 at distance 0, which is below the
threshold. -/
theorem c7_witness :
    ∃ r, onselectClassify
        { pts := [((0 : ℚ), 0), (5, 5)], x1 := 0, x2 := 10, y1 := 0,
          y2 := 10, tol := 1 / 10 } [((0 : ℚ), 0)] = some r ∧
      r.length ≤ 1 ∧
      ((∃ j, r = [j] ∧
          j < ([((0 : ℚ), 0), (5, 5)] : List Point).length ∧
          (∀ k, k < ([((0 : ℚ), 0), (5, 5)] : List Point).length →
            distSq (([((0 : ℚ), 0), (5, 5)] : List Point).getD j (0, 0))
                ((0 : ℚ), 0) ≤
              distSq (([((0 : ℚ), 0), (5, 5)] : List Point).getD k (0, 0))
                ((0 : ℚ), 0)) ∧
          sqrtLt
            (distSq (([((0 : ℚ), 0), (5, 5)] : List Point).getD j (0, 0))
              ((0 : ℚ), 0))
            (clickThresh
              { pts := [((0 : ℚ), 0), (5, 5)], x1 := 0, x2 := 10, y1 := 0,
                y2 := 10, tol := 1 / 10 })) ∨
        (r = [] ∧ ∀ k, k < ([((0 : ℚ), 0), (5, 5)] : List Point).length →
          ¬ sqrtLt
              (distSq (([((0 : ℚ), 0), (5, 5)] : List Point).getD k (0, 0))
                ((0 : ℚ), 0))
              (clickThresh
                { pts := [((0 : ℚ), 0), (5, 5)], x1 := 0, x2 := 10, y1 := 0,
                  y2 := 10, tol := 1 / 10 }))) :=
  c7_click_classification
    { pts := [((0 : ℚ), 0), (5, 5)], x1 := 0, x2 := 10, y1 := 0, y2 := 10,
      tol := 1 / 10 } ((0 : ℚ), 0) []
    (by simp)
    (by
      unfold isClick
      have h0 : pathDeltaSum [((0 : ℚ), 0)] = 0 := rfl
      rw [h0]
      refine decide_eq_true ?_
      norm_num [clickThresh])

lemma prep_collection_id (n : ℕ) (expand : Option ℚ) (b : Buffers)
    (hfc : b.fcAlpha.length = n) (hms : b.ms.length = n) :
    prep_collection n expand b = b := by
  unfold prep_collection
  cases expand <;> simp [hfc, hms]

lemma updateFcAlpha_length (alpha : ℚ) (sel : List ℕ) (len : ℕ) :
    (updateFcAlpha alpha sel len).length = len := by
  simp [updateFcAlpha]

lemma updateFcAlpha_getD (alpha : ℚ) (sel : List ℕ) {len i : ℕ} (hi : i < len) :
    (updateFcAlpha alpha sel len).getD i 0 =
      if sel = [] then 1 else if i ∈ sel then 1 else alpha := by
  have hi' : i < (updateFcAlpha alpha sel len).length := by
    simpa [updateFcAlpha] using hi
  rw [getD_eq_getElem_of_lt 0 hi']
  simp [updateFcAlpha]

lemma updateMs_some_length (e init : ℚ) (sel : List ℕ) (ms : List ℚ) :
    (updateMs (some e) init sel ms).length = ms.length := by
  simp [updateMs]

lemma updateMs_some_getD (e init : ℚ) (sel : List ℕ) {ms : List ℚ} {i : ℕ}
    (hi : i < ms.length) :
    (updateMs (some e) init sel ms).getD i 0 =
      if i ∈ sel then e * init else init := by
  have hi' : i < (updateMs (some e) init sel ms).length := by
    simpa [updateMs] using hi
  rw [getD_eq_getElem_of_lt 0 hi']
  simp [updateMs]

/-- C6: with style buffers matching the point count, applying the style
update for an empty selection sets every point's opacity to 1 and (when
`expand_selected` is enabled) every point's size to the initial default; for
a non-empty selection every selected point gets opacity 1 and (when
enabled) size `expand_selected` times the initial default, while every
unselected point gets opacity `alpha_other` and (when enabled) the initial
default size; and when `expand_selected` is disabled (`None`) the size
buffer is not modified at all. -/
theorem c6_style_applier (alpha init : ℚ) (expand : Option ℚ) (n : ℕ)
    (sel : List ℕ) (b : Buffers)
    (hfc : b.fcAlpha.length = n) (hms : b.ms.length = n) :
    (sel = [] →
      (∀ i, i < n →
        (update_plot alpha expand init n sel b).fcAlpha.getD i 0 = 1) ∧
      (∀ e, expand = some e → ∀ i, i < n →
        (update_plot alpha expand init n sel b).ms.getD i 0 = init)) ∧
    (sel ≠ [] → ∀ i, i < n →
      (i ∈ sel →
        (update_plot alpha expand init n sel b).fcAlpha.getD i 0 = 1 ∧
        (∀ e, expand = some e →
          (update_plot alpha expand init n sel b).ms.getD i 0 = e * init)) ∧
      (i ∉ sel →
        (update_plot alpha expand init n sel b).fcAlpha.getD i 0 = alpha ∧
        (∀ e, expand = some e →
          (update_plot alpha expand init n sel b).ms.getD i 0 = init))) ∧
    (expand = none → (update_plot alpha expand init n sel b).ms = b.ms) := by
  have hprep : prep_collection n expand b = b :=
    prep_collection_id n expand b hfc hms
  have hfc' : (update_plot alpha expand init n sel b).fcAlpha =
      updateFcAlpha alpha sel n := by
    unfold update_plot
    rw [hprep]
    simp only [hfc]
  have hms' : (update_plot alpha expand init n sel b).ms =
      updateMs expand init sel b.ms := by
    unfold update_plot
    rw [hprep]
  refine ⟨fun hsel => ⟨?_, ?_⟩, fun hsel i hi => ⟨fun hmem => ⟨?_, ?_⟩,
    fun hmem => ⟨?_, ?_⟩⟩, fun hnone => ?_⟩
  · intro i hi
    rw [hfc', updateFcAlpha_getD alpha sel hi, if_pos hsel]
  · rintro e rfl i hi
    rw [hms', updateMs_some_getD e init sel (by omega), hsel]
    simp
  · rw [hfc', updateFcAlpha_getD alpha sel hi, if_neg hsel, if_pos hmem]
  · rintro e rfl
    rw [hms', updateMs_some_getD e init sel (by omega), if_pos hmem]
  · rw [hfc', updateFcAlpha_getD alpha sel hi, if_neg hsel, if_neg hmem]
  · rintro e rfl
    rw [hms', updateMs_some_getD e init sel (by omega), if_neg hmem]
  · subst hnone
    rw [hms']
    rfl

/-- C6 (witness): the style applier evaluated at two points with selection
`{0}`, `alpha_other = 1/4`, `expand_selected = 3`, initial size 2, and
matching buffers. -/
theorem c6_witness :
    (([0] : List ℕ) = [] →
      (∀ i, i < 2 →
        (update_plot (1 / 4) (some 3) 2 2 [0]
          { fcAlpha := [1 / 2, 1 / 2], ms := [2, 2] }).fcAlpha.getD i 0 = 1) ∧
      (∀ e, (some (3 : ℚ)) = some e → ∀ i, i < 2 →
        (update_plot (1 / 4) (some 3) 2 2 [0]
          { fcAlpha := [1 / 2, 1 / 2], ms := [2, 2] }).ms.getD i 0 = 2)) ∧
    (([0] : List ℕ) ≠ [] → ∀ i, i < 2 →
      (i ∈ ([0] : List ℕ) →
        (update_plot (1 / 4) (some 3) 2 2 [0]
          { fcAlpha := [1 / 2, 1 / 2], ms := [2, 2] }).fcAlpha.getD i 0 = 1 ∧
        (∀ e, (some (3 : ℚ)) = some e →
          (update_plot (1 / 4) (some 3) 2 2 [0]
            { fcAlpha := [1 / 2, 1 / 2], ms := [2, 2] }).ms.getD i 0 = e * 2)) ∧
      (i ∉ ([0] : List ℕ) →
        (update_plot (1 / 4) (some 3) 2 2 [0]
          { fcAlpha := [1 / 2, 1 / 2], ms := [2, 2] }).fcAlpha.getD i 0 = 1 / 4 ∧
        (∀ e, (some (3 : ℚ)) = some e →
          (update_plot (1 / 4) (some 3) 2 2 [0]
            { fcAlpha := [1 / 2, 1 / 2], ms := [2, 2] }).ms.getD i 0 = 2))) ∧
    ((some (3 : ℚ)) = none →
      (update_plot (1 / 4) (some 3) 2 2 [0]
        { fcAlpha := [1 / 2, 1 / 2], ms := [2, 2] }).ms = [2, 2]) :=
  c6_style_applier (1 / 4) 2 (some 3) 2 [0]
    { fcAlpha := [1 / 2, 1 / 2], ms := [2, 2] } rfl rfl

/-- C10: the style applier is idempotent — on buffers matching the point
count, applying `_update_plot` twice with the same selection produces
exactly the buffers of a single application, because opacities are
overwritten wholesale and sizes are recomputed from the initial default size
captured at construction rather than from the current size buffer. -/
theorem c10_update_plot_idempotent (alpha init : ℚ) (expand : Option ℚ)
    (n : ℕ) (sel : List ℕ) (b : Buffers)
    (hfc : b.fcAlpha.length = n) (hms : b.ms.length = n) :
    update_plot alpha expand init n sel
        (update_plot alpha expand init n sel b) =
      update_plot alpha expand init n sel b := by
  have hprep : prep_collection n expand b = b :=
    prep_collection_id n expand b hfc hms
  have h1 : update_plot alpha expand init n sel b =
      { fcAlpha := updateFcAlpha alpha sel n,
        ms := updateMs expand init sel b.ms } := by
    unfold update_plot
    rw [hprep]
    simp only [hfc]
  have hms1 : (updateMs expand init sel b.ms).length = n := by
    cases expand with
    | none => simpa [updateMs] using hms
    | some e => simpa [updateMs] using hms
  have hprep1 : prep_collection n expand
      { fcAlpha := updateFcAlpha alpha sel n,
        ms := updateMs expand init sel b.ms } =
      { fcAlpha := updateFcAlpha alpha sel n,
        ms := updateMs expand init sel b.ms } :=
    prep_collection_id n expand _ (updateFcAlpha_length alpha sel n) hms1
  rw [h1]
  unfold update_plot
  rw [hprep1]
  simp only [updateFcAlpha_length]
  congr 1
  cases expand with
  | none => rfl
  | some e =>
    unfold updateMs
    rw [List.length_map, List.length_range]

/-- C10 (witness): idempotence evaluated at two points with selection `{0}`
and matching buffers. -/
theorem c10_witness :
    update_plot (1 / 4) (some 3) 2 2 [0]
        (update_plot (1 / 4) (some 3) 2 2 [0]
          { fcAlpha := [1 / 2, 1 / 2], ms := [2, 2] }) =
      update_plot (1 / 4) (some 3) 2 2 [0]
        { fcAlpha := [1 / 2, 1 / 2], ms := [2, 2] } :=
  c10_update_plot_idempotent (1 / 4) 2 (some 3) 2 [0]
    { fcAlpha := [1 / 2, 1 / 2], ms := [2, 2] } rfl rfl

end MatplotlibPlot
